import Mathlib

/-!
Verification of the lablink VM-pool allocation core
(`lablink_client/database.py` and `lablink_client/crd_connect.py`).

The Spanner table is embedded as a list of rows (`PoolState`); the scan
order of the list models the unspecified row order of the SQL queries.
Snapshot reads are pure functions of a state; a transaction body is a
function from the state at transaction time to an `Except` result, where
an `Except.error` outcome means the transaction aborted and wrote
nothing.

Each Python method that first performs snapshot reads (existence check,
pin/command check) and then runs `database.run_in_transaction` is
embedded with TWO state arguments: `s0`, the snapshot the pre-checks
read, and `s1`, the state the transaction body executes against.
Sequential (uninterleaved) execution is the diagonal `op s s`;
interleaved execution with a concurrent committed write between the
check and the transaction is `op s0 s1` with `s0 ≠ s1`.
`find_and_assign_vm` performs its read and its write inside one
transaction body, so its embedding takes a single state.
-/

/-- One row of the pool table: the five columns of the schema
(`Hostname`, `Pin`, `CrdCmd`, `UserEmail`, `inUse`). -/
structure MachineRecord where
  hostname : String
  pin : Option String
  crdCmd : Option String
  userEmail : Option String
  inUse : Bool
deriving Repr, DecidableEq

/-- The pool table: one `MachineRecord` per row, in scan order. -/
abbrev PoolState := List MachineRecord

/-- The error taxonomy raised by the database layer.  In the Python
source all three are `ValueError`s with distinct messages; the spec
names them `NotFoundError`, `PoolExhaustedError` and
`AlreadyProvisionedError`. -/
inductive DBError where
  | notFound (hostname : String)
  | poolExhausted
  | alreadyProvisioned (hostname : String)
deriving Repr, DecidableEq

/-- `SpannerDatabase.vm_exists`: `SELECT * ... WHERE Hostname = @hostname`,
returning `True` iff some row matched. -/
def vm_exists (s : PoolState) (h : String) : Bool :=
  s.any fun r => r.hostname == h

/-- `SpannerDatabase.check_vm_exists`: raises `ValueError` (`NotFoundError`)
when the hostname has no row. -/
def check_vm_exists (s : PoolState) (h : String) : Except DBError Unit :=
  if vm_exists s h then Except.ok () else Except.error (DBError.notFound h)

/-- The effect of `UPDATE <table> SET ... WHERE Hostname = @h`: apply `f`
to every row whose hostname matches `h`, leave the others unchanged. -/
def updateRow (s : PoolState) (h : String) (f : MachineRecord → MachineRecord) : PoolState :=
  s.map fun r => if r.hostname == h then f r else r

/-- Row transformer of the `UPDATE` in `find_and_assign_vm` / `assign_vm`:
`SET UserEmail = @user_email`. -/
def setEmailRow (email : String) (r : MachineRecord) : MachineRecord :=
  ⟨r.hostname, r.pin, r.crdCmd, some email, r.inUse⟩

/-- Row transformer of the `UPDATE` in `unassign_vm`:
`SET Pin = NULL, CrdCmd = NULL, UserEmail = NULL, inUse = FALSE`. -/
def resetRow (r : MachineRecord) : MachineRecord :=
  ⟨r.hostname, none, none, none, false⟩

/-- Row transformer of the `UPDATE` in `add_crd_and_pin`:
`SET Pin = @pin, CrdCmd = @cmd`. -/
def setPinCmdRow (pin cmd : String) (r : MachineRecord) : MachineRecord :=
  ⟨r.hostname, some pin, some cmd, r.userEmail, r.inUse⟩

/-- Row transformer of the `UPDATE` in `set_in_use_status`:
`SET inUse = @in_use`. -/
def setInUseRow (b : Bool) (r : MachineRecord) : MachineRecord :=
  ⟨r.hostname, r.pin, r.crdCmd, r.userEmail, b⟩

/-- `WHERE UserEmail IS NULL`. -/
def isFreeRow (r : MachineRecord) : Bool :=
  r.userEmail.isNone

/-- The transaction body of `SpannerDatabase.find_and_assign_vm`
(the `claim` algorithm): inside one transaction, select the hostname of
one row with `UserEmail IS NULL` (`LIMIT 1`, no `ORDER BY`: the first
row in scan order), raise `ValueError` (`PoolExhaustedError`) if there
is none, otherwise set that row's `UserEmail` and return the hostname.
Both the read and the write happen against the same transaction
state. -/
def find_and_assign_vm_txn (s : PoolState) (email : String) :
    Except DBError (PoolState × String) :=
  match s.find? isFreeRow with
  | none => Except.error DBError.poolExhausted
  | some r => Except.ok (updateRow s r.hostname (setEmailRow email), r.hostname)

/-- `SpannerDatabase.get_pin_and_crd`: existence check, then a snapshot
read of the matching row's `Pin` and `CrdCmd`. -/
def get_pin_and_crd (s : PoolState) (h : String) :
    Except DBError (Option String × Option String) := do
  check_vm_exists s h
  match s.find? (fun r => r.hostname == h) with
  | some r => Except.ok (r.pin, r.crdCmd)
  | none => Except.error (DBError.notFound h)

/-- `SpannerDatabase.add_crd_and_pin` (`issue`): existence check and
no-clobber check read snapshot `s0`; the `UPDATE` transaction then runs
against state `s1`. -/
def add_crd_and_pin (s0 s1 : PoolState) (h pin cmd : String) (override : Bool) :
    Except DBError PoolState := do
  check_vm_exists s0 h
  if override = false then do
    let pc ← get_pin_and_crd s0 h
    if pc ≠ ((none : Option String), (none : Option String)) then
      Except.error (DBError.alreadyProvisioned h)
    else Except.ok ()
  else Except.ok ()
  Except.ok (updateRow s1 h (setPinCmdRow pin cmd))

/-- `SpannerDatabase.unassign_vm` (`release`): existence check on
snapshot `s0`; the resetting `UPDATE` transaction runs against `s1`. -/
def unassign_vm (s0 s1 : PoolState) (h : String) : Except DBError PoolState := do
  check_vm_exists s0 h
  Except.ok (updateRow s1 h resetRow)

/-- `SpannerDatabase.assign_vm` (`assignDirect`): existence check on
snapshot `s0`; sets `UserEmail` with no free-check in a transaction
against `s1`. -/
def assign_vm (s0 s1 : PoolState) (h email : String) : Except DBError PoolState := do
  check_vm_exists s0 h
  Except.ok (updateRow s1 h (setEmailRow email))

/-- `SpannerDatabase.set_in_use_status` (`setActive`): existence check on
snapshot `s0`; sets `inUse` in a transaction against `s1`. -/
def set_in_use_status (s0 s1 : PoolState) (h : String) (b : Bool) :
    Except DBError PoolState := do
  check_vm_exists s0 h
  Except.ok (updateRow s1 h (setInUseRow b))

/-- `SpannerDatabase.get_unassigned_vms` (`listUnassigned`):
`SELECT Hostname WHERE Pin IS NULL AND CrdCmd IS NULL AND UserEmail IS NULL`. -/
def get_unassigned_vms (s : PoolState) : List String :=
  (s.filter fun r => r.pin.isNone && r.crdCmd.isNone && r.userEmail.isNone).map
    MachineRecord.hostname

/-- `SpannerDatabase.get_user_email` (`getOwner`): snapshot read of
`UserEmail` for the hostname; the Python loop returns the first row's
value and falls through to an implicit `None` when no row matches —
no existence check, no `NotFoundError`, no write. -/
def get_user_email (s : PoolState) (h : String) : Option String :=
  match s.find? (fun r => r.hostname == h) with
  | some r => r.userEmail
  | none => none

/-! ### Helper lemmas about states and row updates -/

theorem vm_exists_iff (s : PoolState) (h : String) :
    vm_exists s h = true ↔ ∃ r ∈ s, r.hostname = h := by
  simp [vm_exists]

theorem updateRow_map_hostname (s : PoolState) (h : String)
    (f : MachineRecord → MachineRecord) (hf : ∀ r, (f r).hostname = r.hostname) :
    (updateRow s h f).map MachineRecord.hostname = s.map MachineRecord.hostname := by
  unfold updateRow
  rw [List.map_map]
  congr 1
  funext r
  by_cases hx : r.hostname = h <;> simp [Function.comp, hx, hf]

theorem vm_exists_updateRow (s : PoolState) (h h' : String)
    (f : MachineRecord → MachineRecord) (hf : ∀ r, (f r).hostname = r.hostname) :
    vm_exists (updateRow s h' f) h = vm_exists s h := by
  unfold vm_exists updateRow
  rw [List.any_map]
  congr 1
  funext r
  by_cases hx : r.hostname = h' <;> simp [Function.comp, hx, hf]

theorem updateRow_idem (s : PoolState) (h : String)
    (f : MachineRecord → MachineRecord) (hf : ∀ r, (f r).hostname = r.hostname)
    (hff : ∀ r, f (f r) = f r) :
    updateRow (updateRow s h f) h f = updateRow s h f := by
  unfold updateRow
  rw [List.map_map]
  congr 1
  funext r
  by_cases hx : r.hostname = h
  · simp [Function.comp, hx, hf, hff]
  · simp [Function.comp, hx]

theorem mem_updateRow (s : PoolState) (h : String) (f : MachineRecord → MachineRecord)
    (r : MachineRecord) (hr : r ∈ updateRow s h f) :
    ∃ x ∈ s, (x.hostname = h ∧ r = f x) ∨ (x.hostname ≠ h ∧ r = x) := by
  obtain ⟨x, hx, hfx⟩ := List.mem_map.mp hr
  refine ⟨x, hx, ?_⟩
  by_cases hxh : x.hostname == h
  · exact Or.inl ⟨by simpa using hxh, by simpa [hxh] using hfx.symm⟩
  · exact Or.inr ⟨by simpa using hxh, by simpa [hxh] using hfx.symm⟩

theorem mem_updateRow_of_ne (s : PoolState) (h : String)
    (f : MachineRecord → MachineRecord) (r : MachineRecord) (hr : r ∈ s)
    (hne : r.hostname ≠ h) : r ∈ updateRow s h f := by
  unfold updateRow
  rw [List.mem_map]
  exact ⟨r, hr, by simp [hne]⟩

theorem find?_hostname_of_mem (s : PoolState) (r : MachineRecord) (h : String)
    (hnd : (s.map MachineRecord.hostname).Nodup) (hr : r ∈ s) (hh : r.hostname = h) :
    s.find? (fun x => x.hostname == h) = some r := by
  induction s with
  | nil => cases hr
  | cons x xs ih =>
    rw [List.map_cons, List.nodup_cons] at hnd
    rcases List.mem_cons.mp hr with rfl | hmem
    · exact List.find?_cons_of_pos _ (by simp [hh])
    · have hxh : ¬((x.hostname == h) = true) := by
        intro hbeq
        apply hnd.1
        rw [show x.hostname = h by simpa using hbeq, ← hh]
        exact List.mem_map_of_mem MachineRecord.hostname hmem
      have hstep : List.find? (fun x => x.hostname == h) (x :: xs) =
          List.find? (fun x => x.hostname == h) xs := List.find?_cons_of_neg _ hxh
      rw [hstep]
      exact ih hnd.2 hmem

/-- Claim C1: for every pool state, the claim transaction
(`find_and_assign_vm`'s transaction body) either selects a row whose
`UserEmail` is null, sets exactly that row's `UserEmail` to the given
value and returns that row's hostname, or — when no row is free —
aborts with no write and fails with `PoolExhaustedError`. -/
theorem claim_assigns_free_row_or_exhausts (s : PoolState) (email : String) :
    ((∃ r ∈ s, r.userEmail = none) →
      ∃ r ∈ s, r.userEmail = none ∧
        find_and_assign_vm_txn s email =
          Except.ok (updateRow s r.hostname (setEmailRow email), r.hostname)) ∧
    ((∀ r ∈ s, r.userEmail ≠ none) →
      find_and_assign_vm_txn s email = Except.error DBError.poolExhausted) := by
  constructor
  · rintro ⟨r, hr, hfree⟩
    have hne : s.find? isFreeRow ≠ none := by
      intro hnone
      have := List.find?_eq_none.mp hnone r hr
      simp [isFreeRow, hfree] at this
    obtain ⟨r', hr'⟩ := Option.ne_none_iff_exists'.mp hne
    refine ⟨r', List.mem_of_find?_eq_some hr', ?_, ?_⟩
    · have := List.find?_some hr'
      simpa [isFreeRow, Option.isNone_iff_eq_none] using this
    · simp [find_and_assign_vm_txn, hr']
  · intro hall
    have hnone : s.find? isFreeRow = none := by
      rw [List.find?_eq_none]
      intro r hr
      simp [isFreeRow, Option.isNone_iff_eq_none]
      exact hall r hr
    simp [find_and_assign_vm_txn, hnone]

/-- Witness for C1: on a concrete two-row pool with one free row, the
claim transaction assigns that row and returns its hostname; on a fully
assigned pool it fails with `PoolExhaustedError`. -/
theorem claim_assigns_free_row_or_exhausts_witness :
    ∃ r ∈ ([⟨"vm1", none, none, some "a@x", false⟩,
            ⟨"vm2", none, none, none, false⟩] : PoolState),
      r.userEmail = none ∧
        find_and_assign_vm_txn
          [⟨"vm1", none, none, some "a@x", false⟩, ⟨"vm2", none, none, none, false⟩]
          "b@x" =
          Except.ok (updateRow
            [⟨"vm1", none, none, some "a@x", false⟩, ⟨"vm2", none, none, none, false⟩]
            r.hostname (setEmailRow "b@x"), r.hostname) :=
  (claim_assigns_free_row_or_exhausts
    [⟨"vm1", none, none, some "a@x", false⟩, ⟨"vm2", none, none, none, false⟩]
    "b@x").1 ⟨⟨"vm2", none, none, none, false⟩, by decide, by decide⟩

/-- Claim C4: for every existing hostname and every starting row state,
release (`unassign_vm`) succeeds and its single transaction resets the
matching row to `Pin = NULL, CrdCmd = NULL, UserEmail = NULL,
inUse = FALSE`, leaving every other row unchanged; and release is
idempotent: a second `unassign_vm` on the resulting state returns the
very same state. -/
theorem release_resets_and_idempotent (s : PoolState) (h : String)
    (hex : vm_exists s h = true) :
    ∃ s1, unassign_vm s s h = Except.ok s1 ∧
      (∀ r ∈ s1, r.hostname = h →
        r.pin = none ∧ r.crdCmd = none ∧ r.userEmail = none ∧ r.inUse = false) ∧
      (∀ r ∈ s, r.hostname ≠ h → r ∈ s1) ∧
      unassign_vm s1 s1 h = Except.ok s1 := by
  refine ⟨updateRow s h resetRow, ?_, ?_, ?_, ?_⟩
  · simp [unassign_vm, check_vm_exists, hex, Bind.bind, Except.bind]
  · intro r hr hrh
    obtain ⟨x, _, hcase⟩ := mem_updateRow s h resetRow r hr
    rcases hcase with ⟨_, rfl⟩ | ⟨hne, rfl⟩
    · simp [resetRow]
    · exact absurd hrh hne
  · intro r hr hne
    exact mem_updateRow_of_ne s h resetRow r hr hne
  · have hex1 : vm_exists (updateRow s h resetRow) h = true := by
      rw [vm_exists_updateRow s h h resetRow (fun r => rfl)]
      exact hex
    have hidem := updateRow_idem s h resetRow (fun r => rfl) (fun r => rfl)
    simp [unassign_vm, check_vm_exists, hex1, hidem, Bind.bind, Except.bind]

/-- Witness for C4: releasing the single fully-populated row of a
concrete pool resets all four mutable fields, and a second release is a
no-op. -/
theorem release_resets_and_idempotent_witness :
    ∃ s1, unassign_vm [⟨"vm1", some "123456", some "cmd", some "a@x", true⟩]
        [⟨"vm1", some "123456", some "cmd", some "a@x", true⟩] "vm1" = Except.ok s1 ∧
      (∀ r ∈ s1, r.hostname = "vm1" →
        r.pin = none ∧ r.crdCmd = none ∧ r.userEmail = none ∧ r.inUse = false) ∧
      (∀ r ∈ ([⟨"vm1", some "123456", some "cmd", some "a@x", true⟩] : PoolState),
        r.hostname ≠ "vm1" → r ∈ s1) ∧
      unassign_vm s1 s1 "vm1" = Except.ok s1 :=
  release_resets_and_idempotent
    [⟨"vm1", some "123456", some "cmd", some "a@x", true⟩] "vm1" (by decide)

/-- Claim C10: `get_user_email` (`getOwner`) on a hostname with no
matching row returns `None` without raising `NotFoundError` and without
writing, while every mutating operation (`unassign_vm`, `assign_vm`,
`add_crd_and_pin`, `set_in_use_status`) raises `NotFoundError` on the
same missing hostname; on an existing row it returns that row's current
`UserEmail`. -/
theorem getOwner_missing_returns_none (s : PoolState) (h email p c : String) (b : Bool) :
    (vm_exists s h = false →
      get_user_email s h = none ∧
      unassign_vm s s h = Except.error (DBError.notFound h) ∧
      assign_vm s s h email = Except.error (DBError.notFound h) ∧
      add_crd_and_pin s s h p c false = Except.error (DBError.notFound h) ∧
      set_in_use_status s s h b = Except.error (DBError.notFound h)) ∧
    (∀ r, s.find? (fun x => x.hostname == h) = some r →
      get_user_email s h = r.userEmail) := by
  constructor
  · intro hmiss
    have hfind : s.find? (fun x => x.hostname == h) = none := by
      rw [List.find?_eq_none]
      exact List.any_eq_false.mp (by simpa [vm_exists] using hmiss)
    refine ⟨?_, ?_, ?_, ?_, ?_⟩ <;>
      simp [get_user_email, hfind, unassign_vm, assign_vm, add_crd_and_pin,
        set_in_use_status, check_vm_exists, hmiss, Bind.bind, Except.bind]
  · intro r hr
    simp [get_user_email, hr]

/-- Witness for C10: on a concrete one-row pool, reads and writes on the
absent hostname behave as claimed, and the owner of the present row is
returned. -/
theorem getOwner_missing_returns_none_witness :
    get_user_email [⟨"vm1", none, none, some "a@x", false⟩] "vm2" = none ∧
      unassign_vm [⟨"vm1", none, none, some "a@x", false⟩]
        [⟨"vm1", none, none, some "a@x", false⟩] "vm2" =
        Except.error (DBError.notFound "vm2") ∧
      get_user_email [⟨"vm1", none, none, some "a@x", false⟩] "vm1" = some "a@x" :=
  ⟨((getOwner_missing_returns_none [⟨"vm1", none, none, some "a@x", false⟩]
      "vm2" "b@x" "1" "c" true).1 (by decide)).1,
   ((getOwner_missing_returns_none [⟨"vm1", none, none, some "a@x", false⟩]
      "vm2" "b@x" "1" "c" true).1 (by decide)).2.1,
   (getOwner_missing_returns_none [⟨"vm1", none, none, some "a@x", false⟩]
      "vm1" "b@x" "1" "c" true).2 ⟨"vm1", none, none, some "a@x", false⟩ (by decide)⟩

/-- Claim C7: `get_unassigned_vms` (`listUnassigned`) returns exactly
the hostnames of rows whose `Pin`, `CrdCmd` and `UserEmail` are all
null; consequently, whenever the claim transaction succeeds and returns
hostname `h`, `h` is not in `get_unassigned_vms` of the resulting
state. -/
theorem listUnassigned_three_null_columns (s : PoolState) (email : String) :
    (∀ h, h ∈ get_unassigned_vms s ↔
      ∃ r ∈ s, r.hostname = h ∧ r.pin = none ∧ r.crdCmd = none ∧ r.userEmail = none) ∧
    (∀ s1 h, find_and_assign_vm_txn s email = Except.ok (s1, h) →
      h ∉ get_unassigned_vms s1) := by
  constructor
  · intro h
    simp only [get_unassigned_vms, List.mem_map, List.mem_filter, Bool.and_eq_true,
      Option.isNone_iff_eq_none]
    constructor
    · rintro ⟨r, ⟨hr, hp, hc⟩, hh⟩
      exact ⟨r, hr, hh, hp.1, hp.2, hc⟩
    · rintro ⟨r, hr, hh, hp, hc, he⟩
      exact ⟨r, ⟨hr, ⟨hp, hc⟩, he⟩, hh⟩
  · intro s1 h hok
    cases hf : s.find? isFreeRow with
    | none => simp [find_and_assign_vm_txn, hf] at hok
    | some r0 =>
      simp only [find_and_assign_vm_txn, hf, Except.ok.injEq, Prod.mk.injEq] at hok
      obtain ⟨hs1, hh⟩ := hok
      intro hmem
      simp only [get_unassigned_vms, List.mem_map, List.mem_filter, Bool.and_eq_true,
        Option.isNone_iff_eq_none] at hmem
      obtain ⟨r, ⟨hrmem, _, hre⟩, hrh⟩ := hmem
      rw [← hs1] at hrmem
      obtain ⟨x, _, hcase⟩ := mem_updateRow _ _ _ r hrmem
      rcases hcase with ⟨_, rfl⟩ | ⟨hxne, rfl⟩
      · simp [setEmailRow] at hre
      · exact hxne (by rw [hrh, ← hh])

/-- Witness for C7: claiming the single free row of a concrete pool
removes its hostname from the unassigned list. -/
theorem listUnassigned_three_null_columns_witness :
    find_and_assign_vm_txn [⟨"vm1", none, none, none, false⟩] "a@x" =
      Except.ok ([⟨"vm1", none, none, some "a@x", false⟩], "vm1") ∧
    "vm1" ∉ get_unassigned_vms [⟨"vm1", none, none, some "a@x", false⟩] :=
  ⟨rfl,
   (listUnassigned_three_null_columns [⟨"vm1", none, none, none, false⟩] "a@x").2
     [⟨"vm1", none, none, some "a@x", false⟩] "vm1" rfl⟩

/-- Claim C5: for an existing hostname, `add_crd_and_pin` (`issue`)
without `override` fails with `AlreadyProvisionedError` — writing
nothing — whenever the row currently has a non-null pin or a non-null
command; with `override = true` it succeeds, sets both fields, and a
subsequent `get_pin_and_crd` (`get`) returns exactly the new pin and
command. -/
theorem issue_no_clobber_and_override (s : PoolState) (h p2 c2 : String) :
    ((s.map MachineRecord.hostname).Nodup →
      (∃ r ∈ s, r.hostname = h ∧ (r.pin ≠ none ∨ r.crdCmd ≠ none)) →
      add_crd_and_pin s s h p2 c2 false = Except.error (DBError.alreadyProvisioned h)) ∧
    (vm_exists s h = true →
      ∃ s2, add_crd_and_pin s s h p2 c2 true = Except.ok s2 ∧
        get_pin_and_crd s2 h = Except.ok (some p2, some c2)) := by
  constructor
  · rintro hnd ⟨r, hr, hrh, hprov⟩
    have hex : vm_exists s h = true := (vm_exists_iff s h).mpr ⟨r, hr, hrh⟩
    have hfind := find?_hostname_of_mem s r h hnd hr hrh
    have hpc : get_pin_and_crd s h = Except.ok (r.pin, r.crdCmd) := by
      simp [get_pin_and_crd, check_vm_exists, hex, hfind, Bind.bind, Except.bind]
    have hne : (r.pin, r.crdCmd) ≠ ((none : Option String), (none : Option String)) := by
      rcases hprov with hp | hc
      · exact fun hcon => hp (congrArg Prod.fst hcon)
      · exact fun hcon => hc (congrArg Prod.snd hcon)
    simp [add_crd_and_pin, check_vm_exists, hex, hpc, hne, Bind.bind, Except.bind]
  · intro hex
    refine ⟨updateRow s h (setPinCmdRow p2 c2), ?_, ?_⟩
    · simp [add_crd_and_pin, check_vm_exists, hex, Bind.bind, Except.bind]
    · have hex2 : vm_exists (updateRow s h (setPinCmdRow p2 c2)) h = true := by
        rw [vm_exists_updateRow s h h (setPinCmdRow p2 c2) (fun r => rfl)]
        exact hex
      have hne : (updateRow s h (setPinCmdRow p2 c2)).find?
          (fun r => r.hostname == h) ≠ none := by
        intro hnone
        have hall := List.find?_eq_none.mp hnone
        obtain ⟨r, hr, hrh⟩ := (vm_exists_iff _ h).mp hex2
        exact hall r hr (by simp [hrh])
      obtain ⟨r2, hr2⟩ := Option.ne_none_iff_exists'.mp hne
      have hr2h : r2.hostname = h := by simpa using List.find?_some hr2
      have hr2mem := List.mem_of_find?_eq_some hr2
      obtain ⟨x, _, hcase⟩ := mem_updateRow _ _ _ r2 hr2mem
      rcases hcase with ⟨_, rfl⟩ | ⟨hxne, rfl⟩
      · simp [get_pin_and_crd, check_vm_exists, hex2, hr2, setPinCmdRow,
          Bind.bind, Except.bind]
      · exact absurd hr2h hxne

/-- Witness for C5: issuing on an already-provisioned concrete row
without `override` fails; with `override` it succeeds and the new
credentials are read back. -/
theorem issue_no_clobber_and_override_witness :
    add_crd_and_pin [⟨"vm1", some "111111", some "c1", some "a@x", false⟩]
      [⟨"vm1", some "111111", some "c1", some "a@x", false⟩] "vm1" "222222" "c2" false =
      Except.error (DBError.alreadyProvisioned "vm1") ∧
    ∃ s2, add_crd_and_pin [⟨"vm1", some "111111", some "c1", some "a@x", false⟩]
        [⟨"vm1", some "111111", some "c1", some "a@x", false⟩] "vm1" "222222" "c2" true =
        Except.ok s2 ∧
      get_pin_and_crd s2 "vm1" = Except.ok (some "222222", some "c2") :=
  ⟨(issue_no_clobber_and_override
      [⟨"vm1", some "111111", some "c1", some "a@x", false⟩] "vm1" "222222" "c2").1
      (by decide)
      ⟨⟨"vm1", some "111111", some "c1", some "a@x", false⟩, by decide, by decide,
        Or.inl (by decide)⟩,
   (issue_no_clobber_and_override
      [⟨"vm1", some "111111", some "c1", some "a@x", false⟩] "vm1" "222222" "c2").2
      (by decide)⟩

/-! ### Serial execution of claim transactions

Under the store's serializable isolation, N concurrent `claim` calls are
equivalent to executing their transaction bodies in some serial order;
`run_claims` is that serial execution for an arbitrary order of the
callers' emails. -/

/-- Execute the claim transaction once per email, in order, each against
the state left by the previous one; collect each caller's outcome. -/
def run_claims (s : PoolState) (emails : List String) : List (Except DBError String) :=
  match emails with
  | [] => []
  | e :: rest =>
    match find_and_assign_vm_txn s e with
    | Except.ok (s1, h) => Except.ok h :: run_claims s1 rest
    | Except.error err => Except.error err :: run_claims s rest

/-- Hostnames returned to the successful callers, in caller order. -/
def okHostnames (rs : List (Except DBError String)) : List String :=
  rs.filterMap fun r => match r with
    | Except.ok h => some h
    | Except.error _ => none

/-- Errors surfaced to the failed callers, in caller order. -/
def errResults (rs : List (Except DBError String)) : List DBError :=
  rs.filterMap fun r => match r with
    | Except.ok _ => none
    | Except.error e => some e

/-- Hostnames of the rows with `UserEmail IS NULL`, in scan order. -/
def freeHostnames (s : PoolState) : List String :=
  (s.filter isFreeRow).map MachineRecord.hostname

/-- Number of rows with `UserEmail IS NULL`. -/
def freeCount (s : PoolState) : Nat :=
  (s.filter isFreeRow).length

theorem freeCount_eq_length_freeHostnames (s : PoolState) :
    freeCount s = (freeHostnames s).length := by
  simp [freeCount, freeHostnames]

theorem updateRow_absent (s : PoolState) (h : String)
    (f : MachineRecord → MachineRecord)
    (habs : h ∉ s.map MachineRecord.hostname) : updateRow s h f = s := by
  induction s with
  | nil => rfl
  | cons x xs ih =>
    simp only [List.map_cons, List.mem_cons, not_or] at habs
    have hx : ¬((x.hostname == h) = true) := by
      simp only [beq_iff_eq]
      exact fun he => habs.1 he.symm
    show (if x.hostname == h then f x else x) :: updateRow xs h f = x :: xs
    rw [if_neg hx, ih habs.2]

theorem find?_free_none_freeHostnames (s : PoolState)
    (hf : s.find? isFreeRow = none) : freeHostnames s = [] := by
  have hall := List.find?_eq_none.mp hf
  unfold freeHostnames
  rw [List.filter_eq_nil_iff.mpr hall]
  rfl

theorem find?_free_cons_freeHostnames (s : PoolState) (r : MachineRecord) (e : String)
    (hnd : (s.map MachineRecord.hostname).Nodup) (hf : s.find? isFreeRow = some r) :
    freeHostnames s =
      r.hostname :: freeHostnames (updateRow s r.hostname (setEmailRow e)) := by
  induction s with
  | nil => cases hf
  | cons x xs ih =>
    rw [List.map_cons, List.nodup_cons] at hnd
    by_cases hx : isFreeRow x
    · have hr : r = x := by
        have hpos := List.find?_cons_of_pos (p := isFreeRow) xs hx
        rw [hf] at hpos
        exact Option.some.inj hpos
      subst hr
      have habs := updateRow_absent xs r.hostname (setEmailRow e) hnd.1
      show freeHostnames (r :: xs) = r.hostname ::
        freeHostnames ((if r.hostname == r.hostname then setEmailRow e r else r) ::
          updateRow xs r.hostname (setEmailRow e))
      rw [if_pos (by simp), habs]
      have hre : r.userEmail = none := by simpa [isFreeRow] using hx
      simp [freeHostnames, List.filter_cons, isFreeRow, setEmailRow, hre]
    · have hstep : (x :: xs).find? isFreeRow = xs.find? isFreeRow :=
        List.find?_cons_of_neg _ (by simpa using hx)
      rw [hstep] at hf
      have hrmem := List.mem_of_find?_eq_some hf
      have hxr : ¬((x.hostname == r.hostname) = true) := by
        simp only [beq_iff_eq]
        intro he
        exact hnd.1 (he ▸ List.mem_map_of_mem MachineRecord.hostname hrmem)
      show freeHostnames (x :: xs) = r.hostname ::
        freeHostnames ((if x.hostname == r.hostname then setEmailRow e x else x) ::
          updateRow xs r.hostname (setEmailRow e))
      rw [if_neg hxr]
      have hxfalse : isFreeRow x = false := by simpa using hx
      simp only [freeHostnames, List.filter_cons, hxfalse]
      exact ih hnd.2 hf

theorem freeHostnames_nodup (s : PoolState)
    (hnd : (s.map MachineRecord.hostname).Nodup) : (freeHostnames s).Nodup := by
  have hsub : (s.filter isFreeRow).Sublist s := List.filter_sublist s
  exact List.Nodup.sublist (List.Sublist.map MachineRecord.hostname hsub) hnd

theorem okHostnames_cons_ok (h : String) (rs : List (Except DBError String)) :
    okHostnames (Except.ok h :: rs) = h :: okHostnames rs := rfl

theorem okHostnames_cons_err (e : DBError) (rs : List (Except DBError String)) :
    okHostnames (Except.error e :: rs) = okHostnames rs := rfl

theorem errResults_cons_ok (h : String) (rs : List (Except DBError String)) :
    errResults (Except.ok h :: rs) = errResults rs := rfl

theorem errResults_cons_err (e : DBError) (rs : List (Except DBError String)) :
    errResults (Except.error e :: rs) = e :: errResults rs := rfl

theorem run_claims_cons_err (s : PoolState) (e : String) (rest : List String)
    (hf : s.find? isFreeRow = none) :
    run_claims s (e :: rest) =
      Except.error DBError.poolExhausted :: run_claims s rest := by
  simp [run_claims, find_and_assign_vm_txn, hf]

theorem run_claims_cons_ok (s : PoolState) (e : String) (rest : List String)
    (r : MachineRecord) (hf : s.find? isFreeRow = some r) :
    run_claims s (e :: rest) = Except.ok r.hostname ::
      run_claims (updateRow s r.hostname (setEmailRow e)) rest := by
  simp [run_claims, find_and_assign_vm_txn, hf]

theorem run_claims_ok_take (emails : List String) : ∀ s : PoolState,
    (s.map MachineRecord.hostname).Nodup →
    okHostnames (run_claims s emails) = (freeHostnames s).take emails.length := by
  induction emails with
  | nil => intro s _; simp [run_claims, okHostnames]
  | cons e rest ih =>
    intro s hnd
    cases hf : s.find? isFreeRow with
    | none =>
      have hempty := find?_free_none_freeHostnames s hf
      rw [run_claims_cons_err s e rest hf, okHostnames_cons_err, ih s hnd, hempty]
      simp
    | some r =>
      have hnd' : ((updateRow s r.hostname (setEmailRow e)).map
          MachineRecord.hostname).Nodup := by
        rw [updateRow_map_hostname s r.hostname (setEmailRow e) (fun _ => rfl)]
        exact hnd
      have hkey := find?_free_cons_freeHostnames s r e hnd hf
      rw [run_claims_cons_ok s e rest r hf, okHostnames_cons_ok, ih _ hnd', hkey]
      simp

theorem run_claims_err_replicate (emails : List String) : ∀ s : PoolState,
    (s.map MachineRecord.hostname).Nodup →
    errResults (run_claims s emails) =
      List.replicate (emails.length - freeCount s) DBError.poolExhausted := by
  induction emails with
  | nil => intro s _; simp [run_claims, errResults]
  | cons e rest ih =>
    intro s hnd
    cases hf : s.find? isFreeRow with
    | none =>
      have h0 : freeCount s = 0 := by
        rw [freeCount_eq_length_freeHostnames, find?_free_none_freeHostnames s hf]
        rfl
      rw [run_claims_cons_err s e rest hf, errResults_cons_err, ih s hnd, h0]
      simp [List.replicate_succ]
    | some r =>
      have hnd' : ((updateRow s r.hostname (setEmailRow e)).map
          MachineRecord.hostname).Nodup := by
        rw [updateRow_map_hostname s r.hostname (setEmailRow e) (fun _ => rfl)]
        exact hnd
      have hkey := find?_free_cons_freeHostnames s r e hnd hf
      have hcount : freeCount s =
          freeCount (updateRow s r.hostname (setEmailRow e)) + 1 := by
        rw [freeCount_eq_length_freeHostnames, hkey,
          freeCount_eq_length_freeHostnames]
        simp
      rw [run_claims_cons_ok s e rest r hf, errResults_cons_ok, ih _ hnd', hcount]
      simp [Nat.succ_sub_succ]

/-- Claim C2: under serializable isolation the N concurrent claim calls
execute as some serial order of their transaction bodies (`run_claims`
over an arbitrary caller order); against a pool with unique hostnames
and exactly K free rows, K < N, exactly K calls succeed, the K returned
hostnames are pairwise distinct, and the remaining N − K calls each
fail with `PoolExhaustedError` — no hostname is returned to two
callers. -/
theorem claim_mutual_exclusion (s : PoolState) (emails : List String) (K : Nat)
    (hnd : (s.map MachineRecord.hostname).Nodup)
    (hK : freeCount s = K) (hKN : K < emails.length) :
    (okHostnames (run_claims s emails)).length = K ∧
    (okHostnames (run_claims s emails)).Nodup ∧
    errResults (run_claims s emails) =
      List.replicate (emails.length - K) DBError.poolExhausted := by
  have hok := run_claims_ok_take emails s hnd
  have herr := run_claims_err_replicate emails s hnd
  have hlen : (freeHostnames s).length = K := by
    rw [← freeCount_eq_length_freeHostnames, hK]
  refine ⟨?_, ?_, ?_⟩
  · rw [hok, List.length_take, hlen]
    exact Nat.min_eq_right (Nat.le_of_lt hKN)
  · rw [hok]
    exact List.Nodup.sublist (List.take_sublist emails.length (freeHostnames s))
      (freeHostnames_nodup s hnd)
  · rw [herr, hK]

/-- Witness for C2: three callers race for a two-row pool with one free
row; exactly one succeeds and the other two get `PoolExhaustedError`. -/
theorem claim_mutual_exclusion_witness :
    (okHostnames (run_claims
      [⟨"vm1", none, none, some "a@x", false⟩, ⟨"vm2", none, none, none, false⟩]
      ["u1@x", "u2@x", "u3@x"])).length = 1 ∧
    (okHostnames (run_claims
      [⟨"vm1", none, none, some "a@x", false⟩, ⟨"vm2", none, none, none, false⟩]
      ["u1@x", "u2@x", "u3@x"])).Nodup ∧
    errResults (run_claims
      [⟨"vm1", none, none, some "a@x", false⟩, ⟨"vm2", none, none, none, false⟩]
      ["u1@x", "u2@x", "u3@x"]) =
      List.replicate 2 DBError.poolExhausted :=
  claim_mutual_exclusion
    [⟨"vm1", none, none, some "a@x", false⟩, ⟨"vm2", none, none, none, false⟩]
    ["u1@x", "u2@x", "u3@x"] 1 (by decide) (by decide) (by decide)

/-! ### PIN handling (`crd_connect.py`) -/

/-- A Python value passed as the `pin` argument of `connect_to_crd`:
an `int`, a `str`, `None`, or any other object (the tests pass a
list). -/
inductive PinCandidate where
  | intVal (n : Int)
  | strVal (s : String)
  | noneVal
  | otherVal
deriving Repr, DecidableEq

/-- Python `str.strip`: remove leading and trailing whitespace. -/
def pyStrip (s : String) : String :=
  String.mk (((s.data.dropWhile Char.isWhitespace).reverse.dropWhile
    Char.isWhitespace).reverse)

/-- `enforce_pin_type`: an `int` is converted with `str` and then (being
a `str`) stripped; a `str` is stripped; anything else becomes `None`.
No digit or length check happens here, despite the docstring "Enforces
that the pin is a string of 6 digits". -/
def enforce_pin_type (pin : PinCandidate) : Option String :=
  match pin with
  | PinCandidate.intVal n => some (pyStrip (toString n))
  | PinCandidate.strVal s => some (pyStrip s)
  | PinCandidate.noneVal => none
  | PinCandidate.otherVal => none

/-- The digit alphabet of `generate_pin`: `random.choice("0123456789")`. -/
def pinDigits : List Char := ['0', '1', '2', '3', '4', '5', '6', '7', '8', '9']

/-- `generate_pin`: one uniformly random digit per position, `pin_length`
positions.  The random source is modelled by `choice`, giving the index
drawn at each position (reduced mod 10, as `random.choice` always
returns an in-range element). -/
def generate_pin (choice : Nat → Nat) (pin_length : Nat) : String :=
  String.mk ((List.range pin_length).map fun i => pinDigits.getD (choice i % 10) '0')

/-- The pin-selection logic of `connect_to_crd`:
`pin = enforce_pin_type(pin); if pin is None or len(pin) != 6:
pin = generate_pin()` (with the default length 6). -/
def connect_to_crd_pin (pin : PinCandidate) (choice : Nat → Nat) : String :=
  match enforce_pin_type pin with
  | none => generate_pin choice 6
  | some s => if s.length ≠ 6 then generate_pin choice 6 else s

/-- The spec's notion of a numeric string: every character a digit. -/
def isNumericString (s : String) : Bool :=
  s.data.all Char.isDigit

/-- Counterexample to C9 as stated: the candidate "abcdef" is
non-numeric, hence malformed in the claim's sense, yet
`connect_to_crd` uses it as-is — it is neither normalized nor replaced
by a generated PIN, because the code only tests `pin is None or
len(pin) != 6` and never checks digits. -/
theorem pin_non_numeric_used_as_is :
    connect_to_crd_pin (PinCandidate.strVal "abcdef") (fun _ => 0) = "abcdef" ∧
    isNumericString "abcdef" = false := by
  exact ⟨by decide, by decide⟩

/-- Amended C9: `generate_pin` produces a string of exactly
`pin_length` digit characters (default 6, one uniform draw per digit);
a candidate that is not a string or integer, or whose normalized form
(str of an int, whitespace stripped) has length ≠ 6, is replaced by a
freshly generated PIN; a 6-character normalized candidate is used
as-is even when it is not numeric; the pin handed to the CRD process
always has length 6. -/
theorem pin_generation_and_replacement (choice : Nat → Nat)
    (pin : PinCandidate) (pl : Nat) :
    (generate_pin choice pl).length = pl ∧
    (generate_pin choice pl).data.all Char.isDigit = true ∧
    (connect_to_crd_pin pin choice).length = 6 ∧
    (∀ s, enforce_pin_type pin = some s → s.length = 6 →
      connect_to_crd_pin pin choice = s) ∧
    ((enforce_pin_type pin = none ∨
        (∃ s, enforce_pin_type pin = some s ∧ s.length ≠ 6)) →
      connect_to_crd_pin pin choice = generate_pin choice 6) := by
  have hdigit : ∀ m, m < 10 → (pinDigits.getD m '0').isDigit = true := by decide
  have hlen : ∀ n, (generate_pin choice n).length = n := by
    intro n
    simp [generate_pin, String.length]
  have hall : (generate_pin choice pl).data.all Char.isDigit = true := by
    simp only [generate_pin, String.mk, List.all_eq_true]
    intro c hc
    obtain ⟨i, _, hci⟩ := List.mem_map.mp hc
    rw [← hci]
    exact hdigit (choice i % 10) (Nat.mod_lt _ (by norm_num))
  refine ⟨hlen pl, hall, ?_, ?_, ?_⟩
  · cases hp : enforce_pin_type pin with
    | none => simp [connect_to_crd_pin, hp, hlen]
    | some s =>
      by_cases hs : s.length = 6
      · simp [connect_to_crd_pin, hp, hs]
      · simp [connect_to_crd_pin, hp, hs, hlen]
  · intro s hp hs
    simp [connect_to_crd_pin, hp, hs]
  · intro hbad
    rcases hbad with hp | ⟨s, hp, hs⟩
    · simp [connect_to_crd_pin, hp]
    · simp [connect_to_crd_pin, hp, hs]

/-- Witness for amended C9: the integer candidate 1234 normalizes to
"1234" (length 4) and is replaced by the generated PIN "333333", while
the padded string " 123456 " strips to "123456" and is used as-is. -/
theorem pin_generation_and_replacement_witness :
    connect_to_crd_pin (PinCandidate.intVal 1234) (fun _ => 3) = "333333" ∧
    connect_to_crd_pin (PinCandidate.strVal " 123456 ") (fun _ => 3) = "123456" := by
  constructor
  · have := (pin_generation_and_replacement (fun _ => 3)
      (PinCandidate.intVal 1234) 6).2.2.2.2
      (Or.inr ⟨"1234", by decide, by decide⟩)
    rw [this]
    decide
  · exact (pin_generation_and_replacement (fun _ => 3)
      (PinCandidate.strVal " 123456 ") 6).2.2.2.1 "123456" (by decide) (by decide)

/-! ### The retry loop of `find_and_assign_vm` -/

/-- Python-level error outcomes of one `database.run_in_transaction`
call, as observed by `find_and_assign_vm`'s loop: either one of the
`ValueError`s raised by the transaction body, or a store
serialization-conflict error surfaced by the client library (Spanner's
`Aborted`, once the library's own internal retry deadline is
exhausted). -/
inductive ClaimLoopError where
  | dbError (e : DBError)
  | conflictError
deriving Repr, DecidableEq

/-- Control exits of the body of the `while True:` loop in
`find_and_assign_vm`: `return hostname` on success, re-`raise` of the
caught exception on any error.  `nextIteration` is the fall-through
that would reach the next loop iteration; no control path of the body
produces it, because the `except` clause ends in `raise e`. -/
inductive ClaimLoopExit where
  | returned (h : String)
  | raised (e : ClaimLoopError)
  | nextIteration
deriving Repr, DecidableEq

/-- The loop body: `try: hostname = run_in_transaction(transaction);
return hostname / except Exception as e: log(e); raise e`. -/
def claim_loop_body (result : Except ClaimLoopError String) : ClaimLoopExit :=
  match result with
  | Except.ok h => ClaimLoopExit.returned h
  | Except.error e => ClaimLoopExit.raised e

/-- The `while True:` loop: `runs i` is the outcome the `i`-th call of
`run_in_transaction` would produce; the loop is re-entered only on a
`nextIteration` exit; `fuel` bounds the iterations and `none` models
nontermination. -/
def claim_loop (runs : Nat → Except ClaimLoopError String) :
    Nat → Nat → Option (Except ClaimLoopError String)
  | 0, _ => none
  | Nat.succ fuel, i =>
    match claim_loop_body (runs i) with
    | ClaimLoopExit.returned h => some (Except.ok h)
    | ClaimLoopExit.raised e => some (Except.error e)
    | ClaimLoopExit.nextIteration => claim_loop runs fuel (i + 1)

/-- `find_and_assign_vm`'s "We will keep trying to assign a user a VM
until we succeed!" loop, started at iteration 0. -/
def find_and_assign_vm_loop (runs : Nat → Except ClaimLoopError String)
    (fuel : Nat) : Option (Except ClaimLoopError String) :=
  claim_loop runs fuel 0

/-- Claim C3 (bug in the code): every control path of the loop body
returns or re-raises, so the loop's outcome is always that of the
FIRST `run_in_transaction` call — the body is never re-executed by this
loop.  On the concrete schedule whose first call reports a
serialization conflict and whose second call would succeed, the loop
catches the conflict error and immediately re-raises it instead of
retrying, contradicting both the claim and the source's own comment
"We will keep trying to assign a user a VM until we succeed!". -/
theorem claim_loop_never_retries :
    (∀ (runs : Nat → Except ClaimLoopError String) (fuel i : Nat),
      claim_loop runs (fuel + 1) i = some (runs i)) ∧
    find_and_assign_vm_loop
      (fun i => if i = 0 then Except.error ClaimLoopError.conflictError
                else Except.ok "vm1") 100 =
      some (Except.error ClaimLoopError.conflictError) := by
  constructor
  · intro runs fuel i
    cases hr : runs i <;> simp [claim_loop, claim_loop_body, hr]
  · rfl

/-- Shared helper: a pool with no free row makes the claim selection
come up empty. -/
theorem find?_isFreeRow_eq_none (s : PoolState)
    (hall : ∀ r ∈ s, r.userEmail ≠ none) : s.find? isFreeRow = none := by
  rw [List.find?_eq_none]
  intro r hr
  simp only [isFreeRow, Bool.not_eq_true, Option.isNone_eq_false_iff,
    Option.isSome_iff_ne_none]
  exact hall r hr

/-- Counterexample to C6 as stated: `add_crd_and_pin`'s no-clobber
precondition reads a snapshot taken before its transaction.  With
snapshot `s0` (row claimed but unprovisioned, so the check passes) and
transaction-time state `s1` (the row was meanwhile provisioned by a
concurrent issue), the `override = false` call still writes, clobbering
the credentials; the same precondition evaluated against the
transaction-time state rejects.  Hence the precondition is not inside
the transaction that performs the write. -/
theorem issue_check_outside_transaction :
    add_crd_and_pin [⟨"vm1", none, none, some "u@x", false⟩]
      [⟨"vm1", some "111111", some "c1", some "u@x", false⟩]
      "vm1" "222222" "c2" false =
      Except.ok [⟨"vm1", some "222222", some "c2", some "u@x", false⟩] ∧
    add_crd_and_pin [⟨"vm1", some "111111", some "c1", some "u@x", false⟩]
      [⟨"vm1", some "111111", some "c1", some "u@x", false⟩]
      "vm1" "222222" "c2" false =
      Except.error (DBError.alreadyProvisioned "vm1") := by
  exact ⟨rfl, rfl⟩

/-- Amended C6: only `claim`'s transaction body contains both its
precondition (the free-row selection, evaluated on the transaction
state) and its write; for release, issue, assignDirect and setActive
the existence check — and for issue the no-clobber check — are snapshot
reads evaluated before the transaction, so once the snapshot `s0`
passes the checks, the `UPDATE` is applied to the transaction-time
state `s1` unconditionally, whatever `s1` contains. -/
theorem precondition_checks_read_pre_transaction_snapshot
    (s0 s1 : PoolState) (h email p c : String) (b : Bool)
    (hex : vm_exists s0 h = true)
    (hfree : get_pin_and_crd s0 h =
      Except.ok ((none : Option String), (none : Option String))) :
    unassign_vm s0 s1 h = Except.ok (updateRow s1 h resetRow) ∧
    assign_vm s0 s1 h email = Except.ok (updateRow s1 h (setEmailRow email)) ∧
    set_in_use_status s0 s1 h b = Except.ok (updateRow s1 h (setInUseRow b)) ∧
    add_crd_and_pin s0 s1 h p c false =
      Except.ok (updateRow s1 h (setPinCmdRow p c)) ∧
    ((∀ r ∈ s1, r.userEmail ≠ none) →
      find_and_assign_vm_txn s1 email = Except.error DBError.poolExhausted) := by
  refine ⟨?_, ?_, ?_, ?_, ?_⟩
  · simp [unassign_vm, check_vm_exists, hex, Bind.bind, Except.bind]
  · simp [assign_vm, check_vm_exists, hex, Bind.bind, Except.bind]
  · simp [set_in_use_status, check_vm_exists, hex, Bind.bind, Except.bind]
  · simp [add_crd_and_pin, check_vm_exists, hex, hfree, Bind.bind, Except.bind]
  · intro hall
    simp [find_and_assign_vm_txn, find?_isFreeRow_eq_none s1 hall]

/-- Witness for amended C6: concrete snapshot (claimed, unprovisioned
row) and concrete different transaction-time state (row provisioned in
between); the writes land on the transaction-time state, and the claim
transaction evaluated on a fully assigned state is exhausted. -/
theorem precondition_checks_read_pre_transaction_snapshot_witness :
    unassign_vm [⟨"vm1", none, none, some "u@x", false⟩]
      [⟨"vm1", some "111111", some "c1", some "u@x", false⟩] "vm1" =
      Except.ok (updateRow [⟨"vm1", some "111111", some "c1", some "u@x", false⟩]
        "vm1" resetRow) ∧
    add_crd_and_pin [⟨"vm1", none, none, some "u@x", false⟩]
      [⟨"vm1", some "111111", some "c1", some "u@x", false⟩] "vm1" "222222" "c2" false =
      Except.ok (updateRow [⟨"vm1", some "111111", some "c1", some "u@x", false⟩]
        "vm1" (setPinCmdRow "222222" "c2")) ∧
    find_and_assign_vm_txn [⟨"vm1", some "111111", some "c1", some "u@x", false⟩]
      "e@x" = Except.error DBError.poolExhausted := by
  have hmain := precondition_checks_read_pre_transaction_snapshot
    [⟨"vm1", none, none, some "u@x", false⟩]
    [⟨"vm1", some "111111", some "c1", some "u@x", false⟩]
    "vm1" "e@x" "222222" "c2" true rfl rfl
  exact ⟨hmain.1, hmain.2.2.2.1, hmain.2.2.2.2 (by decide)⟩

/-! ### The pin/crdCommand coupling invariant -/

/-- A row satisfies the coupling invariant when `Pin` and `CrdCmd` are
both null or both non-null. -/
def pinCrdRowOk (r : MachineRecord) : Bool :=
  r.pin.isNone == r.crdCmd.isNone

/-- The whole pool satisfies the coupling invariant. -/
def pinCrdTogether (s : PoolState) : Bool :=
  s.all pinCrdRowOk

/-- One successful public state-changing operation, executed
sequentially (its snapshot checks read the same state its transaction
writes).  The read-only operations (`get_pin_and_crd`,
`get_user_email`, the listings) change no state. -/
inductive PoolStep : PoolState → PoolState → Prop where
  | claim (s s1 : PoolState) (email h : String) :
      find_and_assign_vm_txn s email = Except.ok (s1, h) → PoolStep s s1
  | release (s s1 : PoolState) (h : String) :
      unassign_vm s s h = Except.ok s1 → PoolStep s s1
  | issue (s s1 : PoolState) (h p c : String) (ov : Bool) :
      add_crd_and_pin s s h p c ov = Except.ok s1 → PoolStep s s1
  | assignDirect (s s1 : PoolState) (h email : String) :
      assign_vm s s h email = Except.ok s1 → PoolStep s s1
  | setActive (s s1 : PoolState) (h : String) (b : Bool) :
      set_in_use_status s s h b = Except.ok s1 → PoolStep s s1

/-- Zero or more public operations in sequence. -/
inductive PoolReachable : PoolState → PoolState → Prop where
  | refl (s : PoolState) : PoolReachable s s
  | step (s t u : PoolState) : PoolReachable s t → PoolStep t u → PoolReachable s u

theorem unassign_ok_eq (s s1 : PoolState) (h : String)
    (hok : unassign_vm s s h = Except.ok s1) : s1 = updateRow s h resetRow := by
  by_cases hex : vm_exists s h
  · simp [unassign_vm, check_vm_exists, hex, Bind.bind, Except.bind] at hok
    exact hok.symm
  · simp [unassign_vm, check_vm_exists, hex, Bind.bind, Except.bind] at hok

theorem assign_ok_eq (s s1 : PoolState) (h email : String)
    (hok : assign_vm s s h email = Except.ok s1) :
    s1 = updateRow s h (setEmailRow email) := by
  by_cases hex : vm_exists s h
  · simp [assign_vm, check_vm_exists, hex, Bind.bind, Except.bind] at hok
    exact hok.symm
  · simp [assign_vm, check_vm_exists, hex, Bind.bind, Except.bind] at hok

theorem set_in_use_ok_eq (s s1 : PoolState) (h : String) (b : Bool)
    (hok : set_in_use_status s s h b = Except.ok s1) :
    s1 = updateRow s h (setInUseRow b) := by
  by_cases hex : vm_exists s h
  · simp [set_in_use_status, check_vm_exists, hex, Bind.bind, Except.bind] at hok
    exact hok.symm
  · simp [set_in_use_status, check_vm_exists, hex, Bind.bind, Except.bind] at hok

theorem add_crd_ok_eq (s s1 : PoolState) (h p c : String) (ov : Bool)
    (hok : add_crd_and_pin s s h p c ov = Except.ok s1) :
    s1 = updateRow s h (setPinCmdRow p c) := by
  by_cases hex : vm_exists s h
  · by_cases hov : ov = false
    · subst hov
      cases hg : get_pin_and_crd s h with
      | error e =>
        simp [add_crd_and_pin, check_vm_exists, hex, hg, Bind.bind, Except.bind] at hok
      | ok pc =>
        by_cases hpc : pc = ((none : Option String), (none : Option String))
        · simp [add_crd_and_pin, check_vm_exists, hex, hg, hpc,
            Bind.bind, Except.bind] at hok
          exact hok.symm
        · simp [add_crd_and_pin, check_vm_exists, hex, hg, hpc,
            Bind.bind, Except.bind] at hok
    · have hov' : ov = true := by
        cases ov
        · exact absurd rfl hov
        · rfl
      subst hov'
      simp [add_crd_and_pin, check_vm_exists, hex, Bind.bind, Except.bind] at hok
      exact hok.symm
  · simp [add_crd_and_pin, check_vm_exists, hex, Bind.bind, Except.bind] at hok

theorem claim_ok_eq (s s1 : PoolState) (email h : String)
    (hok : find_and_assign_vm_txn s email = Except.ok (s1, h)) :
    ∃ r, s.find? isFreeRow = some r ∧
      s1 = updateRow s r.hostname (setEmailRow email) := by
  cases hf : s.find? isFreeRow with
  | none => simp [find_and_assign_vm_txn, hf] at hok
  | some r =>
    simp only [find_and_assign_vm_txn, hf, Except.ok.injEq, Prod.mk.injEq] at hok
    exact ⟨r, rfl, hok.1.symm⟩

theorem pinCrdTogether_updateRow (s : PoolState) (h : String)
    (f : MachineRecord → MachineRecord)
    (hf : ∀ r, pinCrdRowOk r = true → pinCrdRowOk (f r) = true)
    (hinv : pinCrdTogether s = true) : pinCrdTogether (updateRow s h f) = true := by
  simp only [pinCrdTogether, List.all_eq_true] at hinv ⊢
  intro r hr
  obtain ⟨x, hx, hcase⟩ := mem_updateRow s h f r hr
  rcases hcase with ⟨_, heq⟩ | ⟨_, heq⟩
  · rw [heq]
    exact hf x (hinv x hx)
  · rw [heq]
    exact hinv x hx

/-- Claim C8: in every state reachable through the public operations
from a state satisfying the coupling invariant, every row has `Pin` and
`CrdCmd` either both null or both non-null: `issue` sets the two fields
together, `release` clears them together, and no operation touches one
without the other. -/
theorem pin_crd_set_and_cleared_together (s t : PoolState)
    (hreach : PoolReachable s t) (hinv : pinCrdTogether s = true) :
    pinCrdTogether t = true := by
  induction hreach with
  | refl => exact hinv
  | step t u _ hstep ih =>
    cases hstep with
    | claim email h hok =>
      obtain ⟨r, _, hu⟩ := claim_ok_eq t u email h hok
      rw [hu]
      exact pinCrdTogether_updateRow t r.hostname (setEmailRow email)
        (fun x hx => hx) ih
    | release h hok =>
      rw [unassign_ok_eq t u h hok]
      exact pinCrdTogether_updateRow t h resetRow (fun x _ => rfl) ih
    | issue h p c ov hok =>
      rw [add_crd_ok_eq t u h p c ov hok]
      exact pinCrdTogether_updateRow t h (setPinCmdRow p c) (fun x _ => rfl) ih
    | assignDirect h email hok =>
      rw [assign_ok_eq t u h email hok]
      exact pinCrdTogether_updateRow t h (setEmailRow email) (fun x hx => hx) ih
    | setActive h b hok =>
      rw [set_in_use_ok_eq t u h b hok]
      exact pinCrdTogether_updateRow t h (setInUseRow b) (fun x hx => hx) ih

/-- Witness for C8: a concrete two-step run — issue credentials on a
claimed row, then release it — preserves the coupling invariant. -/
theorem pin_crd_set_and_cleared_together_witness :
    pinCrdTogether [⟨"vm1", none, none, none, false⟩] = true :=
  pin_crd_set_and_cleared_together
    [⟨"vm1", none, none, some "u@x", false⟩]
    [⟨"vm1", none, none, none, false⟩]
    (PoolReachable.step _ [⟨"vm1", some "123456", some "c1", some "u@x", false⟩] _
      (PoolReachable.step _ _ _
        (PoolReachable.refl [⟨"vm1", none, none, some "u@x", false⟩])
        (PoolStep.issue _ _ "vm1" "123456" "c1" false rfl))
      (PoolStep.release _ _ "vm1" rfl))
    (by decide)
